import Mathlib

/-!
# Verification of the `tombeau` secret-store core

A shallow embedding of the shrine secret store: the typed shrine state
machine, the file codec, and the passphrase-caching agent, translated from
`src/shrine/local.rs`, `src/shrine.rs` and `src/agent/server.rs`.

Components whose source files are not part of the tree (`src/shrine/holder.rs`,
`src/shrine/metadata.rs`, `src/shrine/encryption.rs`, `src/shrine/serialization.rs`,
`src/values/*`) are modelled from the specification; each such definition says so
in its doc comment.
-/

namespace Tombeau

/-- Secret payload mode, `Text` or `Binary`. Modelled from the spec: the type
lives in `src/values/secret.rs`, which is not in the tree; its two variants are
visible at every use site in `src/shrine/local.rs`. -/
inductive Mode where
  | Text
  | Binary
deriving DecidableEq, Repr

/-- The crate-level `Error` enum. The constructors are the ones used by
`src/shrine/local.rs` and `src/agent/server.rs`; IO causes carried by
`IoRead` / `IoWrite` are dropped (they are never inspected). `Read` is the
variant `Error::Read()` returned on a bad magic number (the spec's
`InvalidFile` kind), `CryptoRead` is the spec's `CryptoFailure` kind. -/
inductive Error where
  | FileNotFound (path : String)
  | FileAlreadyExists (path : String)
  | IoRead
  | IoWrite
  | Read
  | UnsupportedVersion (v : Nat)
  | CryptoRead
  | KeyNotFound (key : String)
  | InvalidKey (key : String)
deriving DecidableEq, Repr

/-- A secret value. Modelled from the spec (§3): an immutable triple of bytes,
mode and creation time (`src/values/secret.rs` is not in the tree). Bytes are
`List Nat` with each entry `< 256` in well-formed values. -/
structure Secret where
  value : List Nat
  mode : Mode
  createdAt : Nat
deriving DecidableEq, Repr

/-- Embeds `Secret::new(bytes, mode)`; the clock read becomes the explicit `now`. -/
def Secret.new (value : List Nat) (mode : Mode) (now : Nat) : Secret :=
  ⟨value, mode, now⟩

/-- Embeds `Secret::with_data(bytes, mode)`: replaces data and mode, keeps the
creation time. -/
def Secret.with_data (s : Secret) (value : List Nat) (mode : Mode) : Secret :=
  { s with value := value, mode := mode }

/-! ## Association lists

The holder's two namespaces and the agent's passphrase cache are `BTreeMap`
resp. `HashMap` in the source; both are modelled as association lists with
unique keys, looked up from the left. -/

/-- First value stored under key `k`, if any. -/
def assocGet {κ α : Type} [DecidableEq κ] : List (κ × α) → κ → Option α
  | [], _ => none
  | e :: es, k => if e.1 = k then some e.2 else assocGet es k

/-- Map-style insert: overwrite the first binding of `k`, else append. -/
def assocPut {κ α : Type} [DecidableEq κ] : List (κ × α) → κ → α → List (κ × α)
  | [], k, v => [(k, v)]
  | e :: es, k, v => if e.1 = k then (k, v) :: es else e :: assocPut es k v

/-- Remove every binding of `k`. -/
def assocDrop {κ α : Type} [DecidableEq κ] (l : List (κ × α)) (k : κ) : List (κ × α) :=
  l.filter (fun e => decide (e.1 ≠ k))

theorem assocGet_put_self {κ α : Type} [DecidableEq κ] (l : List (κ × α)) (k : κ) (v : α) :
    assocGet (assocPut l k v) k = some v := by
  induction l with
  | nil => simp [assocGet, assocPut]
  | cons e es ih =>
    by_cases h : e.1 = k
    · simp [assocGet, assocPut, h]
    · simp [assocGet, assocPut, h, ih]

theorem assocGet_put_other {κ α : Type} [DecidableEq κ] (l : List (κ × α)) (k k' : κ) (v : α)
    (h : k' ≠ k) : assocGet (assocPut l k v) k' = assocGet l k' := by
  induction l with
  | nil => simp [assocGet, assocPut, Ne.symm h]
  | cons e es ih =>
    by_cases he : e.1 = k
    · subst he
      simp [assocGet, assocPut, Ne.symm h]
    · by_cases he' : e.1 = k'
      · simp [assocGet, assocPut, he, he', Ne.symm h, h]
      · simp [assocGet, assocPut, he, he', ih]

theorem assocGet_drop_self {κ α : Type} [DecidableEq κ] (l : List (κ × α)) (k : κ) :
    assocGet (assocDrop l k) k = none := by
  induction l with
  | nil => simp [assocGet, assocDrop]
  | cons e es ih =>
    by_cases h : e.1 = k
    · simpa [assocDrop, h] using ih
    · simpa [assocDrop, assocGet, h] using ih

theorem assocGet_append_of_none {κ α : Type} [DecidableEq κ] (l1 l2 : List (κ × α)) (k : κ)
    (h : assocGet l1 k = none) : assocGet (l1 ++ l2) k = assocGet l2 k := by
  induction l1 with
  | nil => rfl
  | cons e es ih =>
    by_cases he : e.1 = k
    · simp [assocGet, he] at h
    · simp only [assocGet, he, if_false] at h
      simpa [assocGet, he] using ih h

theorem assocGet_mem_keys {κ α : Type} [DecidableEq κ] (l : List (κ × α)) (k : κ) (v : α)
    (h : assocGet l k = some v) : k ∈ l.map Prod.fst := by
  induction l with
  | nil => simp [assocGet] at h
  | cons e es ih =>
    by_cases he : e.1 = k
    · simp [he.symm]
    · simp only [assocGet, he, if_false] at h
      simp [ih h]

/-! ## Holder -/

/-- Modelled from the spec (§3, §4.B): `src/shrine/holder.rs` is not in the
tree. Two disjoint namespaces of string key → value; the invariant that a key
exists in at most one of the two namespaces is maintained by the insertion
operations. Iteration order is the (deterministic) list order. -/
structure Holder (α : Type) where
  publicNs : List (String × α)
  privateNs : List (String × α)
deriving DecidableEq, Repr

/-- Embeds `Holder::new()`: both namespaces empty. -/
def Holder.new (α : Type) : Holder α := ⟨[], []⟩

/-- Splits a leading `'.'` off a key, as `key.strip_prefix('.')` does in
`LocalShrine::set` / `get` (`src/shrine/local.rs:196,217`). -/
def dotSplit (key : String) : Option String :=
  match key.data with
  | '.' :: rest => some (String.mk rest)
  | _ => none

/-- Modelled from the spec (§4.B): public-namespace lookup. -/
def Holder.get {α : Type} (h : Holder α) (key : String) : Except Error α :=
  match assocGet h.publicNs key with
  | some v => .ok v
  | none => .error (.KeyNotFound key)

/-- Modelled from the spec (§4.B): private-namespace lookup. -/
def Holder.get_private {α : Type} (h : Holder α) (key : String) : Except Error α :=
  match assocGet h.privateNs key with
  | some v => .ok v
  | none => .error (.KeyNotFound key)

/-- Modelled from the spec (§4.B): public insert, overwriting; an empty key or
a key starting with `'.'` is `InvalidKey`. The key is dropped from the private
namespace so that it exists in at most one namespace (§3 invariant). -/
def Holder.set {α : Type} (h : Holder α) (key : String) (v : α) : Except Error (Holder α) :=
  if key = "" then .error (.InvalidKey key)
  else if (dotSplit key).isSome then .error (.InvalidKey key)
  else .ok ⟨assocPut h.publicNs key v, assocDrop h.privateNs key⟩

/-- Modelled from the spec (§4.B): private insert, overwriting; an empty key is
`InvalidKey`. The key is dropped from the public namespace (§3 invariant). -/
def Holder.set_private {α : Type} (h : Holder α) (key : String) (v : α) : Except Error (Holder α) :=
  if key = "" then .error (.InvalidKey key)
  else .ok ⟨assocDrop h.publicNs key, assocPut h.privateNs key v⟩

/-- Modelled from the spec (§4.B): `remove(key) → bool` on the public
namespace (the dotted-lookup convention lives at the shrine level, §4.B/§4.F;
the spec lists no private removal operation). -/
def Holder.remove {α : Type} (h : Holder α) (key : String) : Holder α × Bool :=
  match assocGet h.publicNs key with
  | some _ => (⟨assocDrop h.publicNs key, h.privateNs⟩, true)
  | none => (h, false)

/-- Embeds `keys()`: ordered public key enumeration. -/
def Holder.keys {α : Type} (h : Holder α) : List String :=
  h.publicNs.map Prod.fst

/-- Embeds `keys_private()`: ordered private key enumeration. -/
def Holder.keys_private {α : Type} (h : Holder α) : List String :=
  h.privateNs.map Prod.fst

/-- The §3 invariant: a key exists in at most one of the two namespaces. -/
def Holder.Wf {α : Type} (h : Holder α) : Prop :=
  ∀ k, k ∈ h.keys → k ∈ h.keys_private → False

instance {α : Type} (h : Holder α) : Decidable h.Wf :=
  inferInstanceAs (Decidable (∀ k ∈ h.keys, k ∈ h.keys_private → False))

/-! ## Metadata and the shrine value -/

/-- Encryption algorithm tag (`src/shrine/encryption.rs` is not in the tree;
the two variants are visible throughout `src/shrine/local.rs`). -/
inductive EncryptionAlgorithm where
  | Aes
  | Plain
deriving DecidableEq, Repr

/-- Serialization format. Modelled from the spec (§4.D):
`src/shrine/serialization.rs` is not in the tree; `Bson` is the binary
document reference format (the default), `Text` the line-oriented one. -/
inductive SerializationFormat where
  | Bson
  | Text
deriving DecidableEq, Repr

/-- Embeds `Metadata` (`src/shrine/metadata.rs` is not in the tree; the single `V0`
variant and its three fields are visible in `src/shrine/local.rs:178-188,
250-260, 291-295, 338-348`). The uuid is the `u128` of `Uuid::as_u128`. -/
inductive Metadata where
  | V0 (uuid : Nat) (encryption_algorithm : EncryptionAlgorithm)
      (serialization_format : SerializationFormat)
deriving DecidableEq, Repr

def Metadata.uuid : Metadata → Nat
  | .V0 u _ _ => u

/-- Modelled from the spec (§3): the file version is fixed at 0 for `V0`. -/
def Metadata.version : Metadata → Nat
  | .V0 _ _ _ => 0

def Metadata.encryption_algorithm : Metadata → EncryptionAlgorithm
  | .V0 _ e _ => e

def Metadata.serialization_format : Metadata → SerializationFormat
  | .V0 _ _ f => f

/-- Max supported file version (`src/shrine.rs:21`). -/
def VERSION : Nat := 0

/-- The open payload: an in-memory holder of secrets (`Open` in
`src/shrine/local.rs:20-22`). -/
structure OpenSecrets where
  secrets : Holder Secret
deriving DecidableEq, Repr

/-- The closed payload (`Closed(Vec<u8>)` in `src/shrine/local.rs:25`),
parameterized by the blob representation: raw serialized bytes for clear
shrines, an AEAD blob for AES shrines. -/
structure ClosedBlob (α : Type) where
  blob : α
deriving DecidableEq, Repr

/-- Embeds `Password(String)` (`src/shrine/local.rs:33`). -/
structure Password where
  pw : String
deriving DecidableEq, Repr

/-- Embeds `NoPassword` (`src/shrine/local.rs:36`). -/
structure NoPassword where
deriving DecidableEq, Repr

/-- Embeds `Aes<P>` (`src/shrine/local.rs:39`). -/
structure AesState (P : Type) where
  password : P
deriving DecidableEq, Repr

/-- Embeds `Clear` (`src/shrine/local.rs:55`). -/
structure ClearState where
deriving DecidableEq, Repr

/-- Embeds `LocalShrine<S, E>` (`src/shrine/local.rs:61-68`). -/
structure LocalShrine (S : Type) (E : Type) where
  magic_number : List Nat
  metadata : Metadata
  payload : S
  encryption : E
deriving DecidableEq, Repr

/-- The magic number: the six ASCII bytes of `"shrine"`
(`src/shrine/local.rs:291`). -/
def shrineMagic : List Nat := [115, 104, 114, 105, 110, 101]

/-! ## Serializer

Modelled from the spec (§4.D): `src/shrine/serialization.rs` is not in the
tree. The spec allows "any standard binary document format that round-trips
unambiguously" for the holder payload; the reference encoder below is a
length-prefixed token stream over `List Nat`. -/

/-- Encode a string: length, then the code points of its characters. -/
def encodeStr (s : String) : List Nat :=
  s.data.length :: s.data.map Char.toNat

/-- Encode a secret: value length, value bytes, mode tag, creation time. -/
def encodeSecret (s : Secret) : List Nat :=
  s.value.length :: s.value ++ [(match s.mode with | .Text => 0 | .Binary => 1), s.createdAt]

/-- Encode one key → secret entry. -/
def encodeEntry (e : String × Secret) : List Nat :=
  encodeStr e.1 ++ encodeSecret e.2

/-- Encode a namespace: entry count, then the entries. -/
def encodeNamespace (l : List (String × Secret)) : List Nat :=
  l.length :: l.flatMap encodeEntry

/-- Modelled from the spec (§4.D): serialize a holder as its two namespaces. -/
def serializeHolder (h : Holder Secret) : List Nat :=
  encodeNamespace h.publicNs ++ encodeNamespace h.privateNs

/-- Decode a string: consume a length, then that many code points. -/
def decodeStr (bs : List Nat) : Option (String × List Nat) :=
  match bs with
  | [] => none
  | n :: rest =>
    if n ≤ rest.length then
      some (String.mk ((rest.take n).map Char.ofNat), rest.drop n)
    else none

/-- Decode a secret: value, mode tag, creation time. -/
def decodeSecret (bs : List Nat) : Option (Secret × List Nat) :=
  match bs with
  | [] => none
  | n :: rest =>
    if n ≤ rest.length then
      match rest.drop n with
      | m :: t :: r =>
        match m with
        | 0 => some (⟨rest.take n, .Text, t⟩, r)
        | 1 => some (⟨rest.take n, .Binary, t⟩, r)
        | _ => none
      | _ => none
    else none

/-- Decode one entry. -/
def decodeEntry (bs : List Nat) : Option ((String × Secret) × List Nat) :=
  match decodeStr bs with
  | none => none
  | some (k, r) =>
    match decodeSecret r with
    | none => none
    | some (s, r') => some ((k, s), r')

/-- Decode `n` entries. -/
def decodeEntries : Nat → List Nat → Option (List (String × Secret) × List Nat)
  | 0, bs => some ([], bs)
  | n + 1, bs =>
    match decodeEntry bs with
    | none => none
    | some (e, r) =>
      match decodeEntries n r with
      | none => none
      | some (es, r') => some (e :: es, r')

/-- Decode a namespace: entry count, then the entries. -/
def decodeNamespace (bs : List Nat) : Option (List (String × Secret) × List Nat) :=
  match bs with
  | [] => none
  | n :: rest => decodeEntries n rest

/-- Modelled from the spec (§4.D): deserialize a holder; trailing garbage is
rejected. -/
def deserializeHolder (bs : List Nat) : Option (Holder Secret) :=
  match decodeNamespace bs with
  | none => none
  | some (pub, r) =>
    match decodeNamespace r with
    | none => none
    | some (priv, r') => if r' = [] then some ⟨pub, priv⟩ else none

/-- Embeds `serializer().serialize` (`SerializationFormat::serializer` is not in the
tree): both formats use the reference document encoder. -/
def SerializationFormat.serialize (_ : SerializationFormat) (h : Holder Secret) :
    Except Error (List Nat) :=
  .ok (serializeHolder h)

/-- Embeds `serializer().deserialize`: decode failures surface as read errors. -/
def SerializationFormat.deserialize (_ : SerializationFormat) (bs : List Nat) :
    Except Error (Holder Secret) :=
  match deserializeHolder bs with
  | some h => .ok h
  | none => .error .IoRead

theorem decodeStr_encodeStr (s : String) (t : List Nat) :
    decodeStr (encodeStr s ++ t) = some (s, t) := by
  have hlen : s.data.length = (s.data.map Char.toNat).length := (List.length_map _ _).symm
  have hid : s.data.map (Char.ofNat ∘ Char.toNat) = s.data := by
    have hp : ∀ c ∈ s.data, (Char.ofNat ∘ Char.toNat) c = id c :=
      fun c _ => Char.ofNat_toNat c
    rw [List.map_congr_left hp, List.map_id]
  simp only [decodeStr, encodeStr, List.cons_append]
  rw [if_pos (by simp),
    List.take_append_of_le_length (le_of_eq hlen),
    List.drop_append_of_le_length (le_of_eq hlen),
    hlen, List.take_length, List.drop_length, List.nil_append, List.map_map, hid]

theorem decodeSecret_encodeSecret (s : Secret) (t : List Nat) :
    decodeSecret (encodeSecret s ++ t) = some (s, t) := by
  obtain ⟨v, m, c⟩ := s
  simp only [decodeSecret, encodeSecret, List.cons_append, List.append_assoc]
  rw [if_pos (by simp)]
  rw [List.drop_append_of_le_length (by simp), List.take_append_of_le_length (by simp)]
  simp only [List.drop_length, List.take_length, List.nil_append, List.cons_append]
  cases m <;> simp

theorem decodeEntry_encodeEntry (e : String × Secret) (t : List Nat) :
    decodeEntry (encodeEntry e ++ t) = some (e, t) := by
  simp [decodeEntry, encodeEntry, List.append_assoc, decodeStr_encodeStr,
    decodeSecret_encodeSecret]

theorem decodeEntries_encode (l : List (String × Secret)) (t : List Nat) :
    decodeEntries l.length (l.flatMap encodeEntry ++ t) = some (l, t) := by
  induction l generalizing t with
  | nil => simp [decodeEntries]
  | cons e es ih =>
    simp [decodeEntries, List.flatMap_cons, List.append_assoc,
      decodeEntry_encodeEntry, ih]

theorem decodeNamespace_encode (l : List (String × Secret)) (t : List Nat) :
    decodeNamespace (encodeNamespace l ++ t) = some (l, t) := by
  simp [decodeNamespace, encodeNamespace, decodeEntries_encode]

/-- Round-trip invariant of the document serializer (spec §4.D). -/
theorem deserializeHolder_serializeHolder (h : Holder Secret) :
    deserializeHolder (serializeHolder h) = some h := by
  obtain ⟨pub, priv⟩ := h
  have h2 : decodeNamespace (encodeNamespace priv) = some (priv, []) := by
    simpa using decodeNamespace_encode priv []
  simp [serializeHolder, deserializeHolder, decodeNamespace_encode, h2]

/-! ## Encryptor

Modelled from the spec (§4.E): `src/shrine/encryption.rs` is not in the tree.
AES-256-GCM-SIV with an Argon2 passphrase-derived key is modelled as an ideal
AEAD: the ciphertext blob records the passphrase it was sealed under and
whether it is still intact; decryption succeeds exactly when the same
passphrase is presented and the blob has not been tampered with. Wrong
passphrase and tampering are indistinguishable: both yield `CryptoRead`
(the spec's `CryptoFailure`), which the ideal model makes certain rather
than overwhelmingly probable. -/
structure EncBlob where
  password : String
  plaintext : List Nat
  intact : Bool
deriving DecidableEq, Repr

/-- Embeds `encryptor(password).encrypt(clear_bytes)`. -/
def aesEncrypt (password : String) (pt : List Nat) : EncBlob :=
  ⟨password, pt, true⟩

/-- Embeds `encryptor(password).decrypt(blob)`. -/
def aesDecrypt (password : String) (blob : EncBlob) : Except Error (List Nat) :=
  if blob.intact ∧ blob.password = password then .ok blob.plaintext
  else .error .CryptoRead

/-- AEAD tampering: flipping any ciphertext bit destroys authenticity
(spec §8.4); in the ideal model the blob is no longer intact. -/
def tamperBlob (blob : EncBlob) : EncBlob :=
  { blob with intact := false }

/-! ## Shrine state machine (`src/shrine/local.rs`) -/

/-- Embeds `LocalShrine::<Open, T>::set` (`src/shrine/local.rs:195-214`): a leading
`'.'` routes to the private namespace; otherwise an existing secret is updated
in place via `with_data`, a missing one is inserted via `Holder::set`. The
clock read inside `Secret::new` becomes the explicit `now`. -/
def LocalShrine.set {E : Type} (s : LocalShrine OpenSecrets E) (key : String)
    (value : List Nat) (mode : Mode) (now : Nat) :
    Except Error (LocalShrine OpenSecrets E) :=
  match dotSplit key with
  | some k =>
    (s.payload.secrets.set_private k (Secret.new value mode now)).map
      fun secrets => { s with payload := ⟨secrets⟩ }
  | none =>
    match s.payload.secrets.get key with
    | .ok secret =>
      .ok { s with
        payload := ⟨⟨assocPut s.payload.secrets.publicNs key (secret.with_data value mode),
          s.payload.secrets.privateNs⟩⟩ }
    | .error (.KeyNotFound _) =>
      (s.payload.secrets.set key (Secret.new value mode now)).map
        fun secrets => { s with payload := ⟨secrets⟩ }
    | .error e => .error e

/-- Embeds `LocalShrine::<Open, T>::get` (`src/shrine/local.rs:216-221`). -/
def LocalShrine.get {E : Type} (s : LocalShrine OpenSecrets E) (key : String) :
    Except Error Secret :=
  match dotSplit key with
  | some k => s.payload.secrets.get_private k
  | none => s.payload.secrets.get key

/-- Embeds `LocalShrine::<Open, T>::rm` (`src/shrine/local.rs:223-225`): the key is
passed to `Holder::remove` unchanged — unlike `set` and `get` there is no
`strip_prefix('.')`. -/
def LocalShrine.rm {E : Type} (s : LocalShrine OpenSecrets E) (key : String) :
    LocalShrine OpenSecrets E × Bool :=
  let r := s.payload.secrets.remove key
  ({ s with payload := ⟨r.1⟩ }, r.2)

/-- Embeds `LocalShrine::<Open, T>::keys` (`src/shrine/local.rs:237-239`). -/
def LocalShrine.keys {E : Type} (s : LocalShrine OpenSecrets E) : List String :=
  s.payload.secrets.keys

/-- Embeds `LocalShrine::<Open, T>::keys_private` (`src/shrine/local.rs:241-243`). -/
def LocalShrine.keys_private {E : Type} (s : LocalShrine OpenSecrets E) : List String :=
  s.payload.secrets.keys_private

/-- Embeds `LocalShrine::<Open, Aes<T>>::into_clear` (`src/shrine/local.rs:247-264`). -/
def LocalShrine.into_clear {P : Type} (s : LocalShrine OpenSecrets (AesState P)) :
    LocalShrine OpenSecrets ClearState :=
  { magic_number := s.magic_number
    metadata :=
      match s.metadata with
      | .V0 uuid _ serialization_format =>
        .V0 uuid .Plain serialization_format
    payload := s.payload
    encryption := ⟨⟩ }

/-- Embeds `LocalShrine::<Open, Aes<T>>::set_password` (`src/shrine/local.rs:266-275`). -/
def LocalShrine.set_password {P : Type} (s : LocalShrine OpenSecrets (AesState P))
    (password : String) : LocalShrine OpenSecrets (AesState Password) :=
  { magic_number := s.magic_number
    metadata := s.metadata
    payload := s.payload
    encryption := ⟨⟨password⟩⟩ }

/-- Embeds `LocalShrine::<Open, Aes<NoPassword>>::new` / `default`
(`src/shrine/local.rs:279-305`); the random uuid becomes the explicit
argument. -/
def LocalShrine.new (uuid : Nat) : LocalShrine OpenSecrets (AesState NoPassword) :=
  { magic_number := shrineMagic
    metadata := .V0 uuid .Aes .Bson
    payload := ⟨Holder.new Secret⟩
    encryption := ⟨⟨⟩⟩ }

/-- Embeds `LocalShrine::<Open, Aes<Password>>::close` (`src/shrine/local.rs:307-332`):
serialize the secrets, then encrypt with the stored passphrase. -/
def LocalShrine.close (s : LocalShrine OpenSecrets (AesState Password)) :
    Except Error (LocalShrine (ClosedBlob EncBlob) (AesState NoPassword)) := do
  let clear_bytes ← s.metadata.serialization_format.serialize s.payload.secrets
  let cipher_bytes := aesEncrypt s.encryption.password.pw clear_bytes
  pure
    { magic_number := s.magic_number
      metadata := s.metadata
      payload := ⟨cipher_bytes⟩
      encryption := ⟨⟨⟩⟩ }

/-- Embeds `LocalShrine::<Open, Aes<NoPassword>>::close(password)`
(`src/shrine/local.rs:283-285`): `set_password` then `close`. -/
def LocalShrine.closeWith (s : LocalShrine OpenSecrets (AesState NoPassword))
    (password : String) :
    Except Error (LocalShrine (ClosedBlob EncBlob) (AesState NoPassword)) :=
  (s.set_password password).close

/-- Embeds `LocalShrine::<Closed, Aes<NoPassword>>::open(password)`
(`src/shrine/local.rs:150-174`): decrypt with the supplied passphrase, then
deserialize. -/
def LocalShrine.openAes (s : LocalShrine (ClosedBlob EncBlob) (AesState NoPassword))
    (password : String) :
    Except Error (LocalShrine OpenSecrets (AesState Password)) := do
  let clear_bytes ← aesDecrypt password s.payload.blob
  let secrets ← s.metadata.serialization_format.deserialize clear_bytes
  pure
    { magic_number := s.magic_number
      metadata := s.metadata
      payload := ⟨secrets⟩
      encryption := ⟨⟨password⟩⟩ }

/-- Embeds `LocalShrine::<Open, Clear>::into_aes` (`src/shrine/local.rs:335-354`). -/
def LocalShrine.into_aes (s : LocalShrine OpenSecrets ClearState) :
    LocalShrine OpenSecrets (AesState NoPassword) :=
  { magic_number := s.magic_number
    metadata :=
      match s.metadata with
      | .V0 uuid _ serialization_format =>
        .V0 uuid .Aes serialization_format
    payload := s.payload
    encryption := ⟨⟨⟩⟩ }

/-- Embeds `LocalShrine::<Open, Clear>::close` (`src/shrine/local.rs:368-381`). -/
def LocalShrine.closeClear (s : LocalShrine OpenSecrets ClearState) :
    Except Error (LocalShrine (ClosedBlob (List Nat)) ClearState) := do
  let bytes ← s.metadata.serialization_format.serialize s.payload.secrets
  pure
    { magic_number := s.magic_number
      metadata := s.metadata
      payload := ⟨bytes⟩
      encryption := ⟨⟩ }

/-- Embeds `LocalShrine::<Closed, Clear>::open` (`src/shrine/local.rs:133-148`). -/
def LocalShrine.openClear (s : LocalShrine (ClosedBlob (List Nat)) ClearState) :
    Except Error (LocalShrine OpenSecrets ClearState) := do
  let secrets ← s.metadata.serialization_format.deserialize s.payload.blob
  pure
    { magic_number := s.magic_number
      metadata := s.metadata
      payload := ⟨secrets⟩
      encryption := ⟨⟩ }

/-! ## File codec (`src/shrine/local.rs:88-116, 385-445`)

`try_to_bytes` / `try_from_bytes` move through the borsh encoding of
`LocalShrine<Closed, T>`: the 6 magic bytes, the `Metadata` enum tag (= the
version byte, 0 for `V0`), the `u128` uuid little-endian, one tag byte each
for the encryption algorithm and the serialization format (spec §4.C:
0 = Plain/BinaryDoc, 1 = Aes/Text), and the `u32`-length-prefixed payload.
Bytes are `Nat`s reduced mod 256 where the width matters. -/

/-- The closed shrine as serialized: `LocalShrine<Closed, Unknown>`
(`src/shrine/local.rs:421`); the encryption marker is skipped by borsh. -/
structure ClosedFile where
  magic_number : List Nat
  metadata : Metadata
  payload : List Nat
deriving DecidableEq, Repr

/-- Returns `k` little-endian bytes of `n`. -/
def natLeBytes (n : Nat) : Nat → List Nat
  | 0 => []
  | k + 1 => n % 256 :: natLeBytes (n / 256) k

/-- Little-endian byte-list value. -/
def leNat : List Nat → Nat
  | [] => 0
  | b :: bs => b % 256 + 256 * leNat bs

def encTag : EncryptionAlgorithm → Nat
  | .Plain => 0
  | .Aes => 1

def fmtTag : SerializationFormat → Nat
  | .Bson => 0
  | .Text => 1

/-- Borsh encoding of `Metadata`: variant tag 0 (`V0`), then the fields. -/
def encodeMetadata : Metadata → List Nat
  | .V0 uuid e fo => 0 :: natLeBytes uuid 16 ++ [encTag e, fmtTag fo]

/-- Embeds `LocalShrine::<Closed, T>::try_to_bytes` (`src/shrine/local.rs:89-99`):
borsh-serialize the whole struct. -/
def tryToBytes (f : ClosedFile) : List Nat :=
  f.magic_number ++ encodeMetadata f.metadata
    ++ natLeBytes f.payload.length 4 ++ f.payload

def decodeEncTag : Nat → Option EncryptionAlgorithm
  | 0 => some .Plain
  | 1 => some .Aes
  | _ => none

def decodeFmtTag : Nat → Option SerializationFormat
  | 0 => some .Bson
  | 1 => some .Text
  | _ => none

/-- Borsh decoding of `Metadata`: unknown variant or field tags fail. -/
def decodeMetadata (bs : List Nat) : Option (Metadata × List Nat) :=
  match bs with
  | 0 :: rest =>
    if 18 ≤ rest.length then
      match decodeEncTag (rest.getD 16 0), decodeFmtTag (rest.getD 17 0) with
      | some e, some fo => some (.V0 (leNat (rest.take 16)) e fo, rest.drop 18)
      | _, _ => none
    else none
  | _ => none

/-- Borsh decoding of `Vec<u8>`: `u32` little-endian length, then the bytes. -/
def decodeVec (bs : List Nat) : Option (List Nat × List Nat) :=
  if 4 ≤ bs.length then
    let n := leNat (bs.take 4)
    let rest := bs.drop 4
    if n ≤ rest.length then some (rest.take n, rest.drop n) else none
  else none

/-- Embeds `LocalShrine::<Closed, Unknown>::try_from_slice` (borsh, consuming all
input). -/
def borshDecode (bs : List Nat) : Option ClosedFile :=
  if 6 ≤ bs.length then
    match decodeMetadata (bs.drop 6) with
    | some (md, r) =>
      match decodeVec r with
      | some (payload, r') =>
        if r' = [] then some ⟨bs.take 6, md, payload⟩ else none
      | none => none
    | none => none
  else none

/-- Embeds `LoadedShrine` (`src/shrine/local.rs:385-388`). -/
inductive LoadedShrine where
  | Clear (f : ClosedFile)
  | Aes (f : ClosedFile)
deriving DecidableEq, Repr

/-- What a call to `LoadedShrine::try_from_bytes` does: returns, fails with an
error, or panics (a Rust out-of-bounds index aborts instead of returning). -/
inductive ParseOutcome where
  | panics
  | fails (e : Error)
  | loads (s : LoadedShrine)
deriving DecidableEq, Repr

/-- Embeds `LoadedShrine::try_from_bytes` (`src/shrine/local.rs:411-444`), step by
step: (1) `bytes.len() < 6 || &bytes[0..6] != "shrine"` → `Error::Read()`;
(2) the direct index `bytes[6]` — a panic when the input has exactly 6 bytes;
(3) the version guard; (4) the borsh decode; (5) dispatch on the algorithm. -/
def tryFromBytes (bs : List Nat) : ParseOutcome :=
  if bs.length < 6 ∨ bs.take 6 ≠ shrineMagic then .fails .Read
  else
    match bs[6]? with
    | none => .panics
    | some v =>
      if VERSION < v then .fails (.UnsupportedVersion v)
      else
        match borshDecode bs with
        | none => .fails .IoRead
        | some f =>
          match f.metadata.encryption_algorithm with
          | .Aes => .loads (.Aes f)
          | .Plain => .loads (.Clear f)

/-! ## Persisting (`src/shrine/local.rs:102-116`)

`write_file` is `File::create(path)` followed by `write_all(&bytes)`. The two
file-system effects are made explicit: an operation trace, and the resulting
content of the target path under an injected outcome (`File::create`
truncates the file on success; a failing `write_all` leaves whatever prefix
was written). -/

inductive FsOp where
  | create (path : String)
  | writeAll (path : String) (bytes : List Nat)
  | fsync (path : String)
  | rename (tmpPath target : String)
deriving DecidableEq, Repr

inductive WriteOutcome where
  | createFailed
  | writeFailed (written : Nat)
  | success
deriving DecidableEq, Repr

/-- The file-system operations `write_file` issues, in order. -/
def write_file_trace (f : ClosedFile) (path : String) : List FsOp :=
  [.create path, .writeAll path (tryToBytes f)]

/-- Content of the target path after `write_file`, plus whether the call
returned `Ok`. `orig` is the previous content (`none`: no such file). -/
def write_file (f : ClosedFile) (orig : Option (List Nat)) (o : WriteOutcome) :
    Option (List Nat) × Bool :=
  match o with
  | .createFailed => (orig, false)
  | .writeFailed k => (some ((tryToBytes f).take k), false)
  | .success => (some (tryToBytes f), true)

/-! ## Agent (`src/agent/server.rs`) -/

/-- Embeds `ErrorResponse` (declared in `src/agent.rs`, not in the tree; the
constructors are visible at the use sites in `src/agent/server.rs`). -/
inductive ErrorResponse where
  | FileNotFound (path : String)
  | Read (path : String)
  | Io (path : String)
  | KeyNotFound (file : String) (key : String)
  | Unauthorized (uuid : Nat)
  | Forbidden (uuid : Nat)
  | Write (path : String)
deriving DecidableEq, Repr

/-- Modelled from the spec (§4.F, §6): the old-generation `Shrine` value used
by the agent (`src/shrine.rs` of that generation is not in the tree). It
exposes its uuid, whether it is AES-encrypted (`requires_password`), and which
passphrases successfully open it. -/
structure AgentShrine where
  uuid : Nat
  requiresPassword : Bool
  opensWith : String → Bool

/-- The possible results of `Shrine::from_path`, matched at
`src/agent/server.rs:163-170`. -/
inductive LoadOutcome where
  | fileNotFound
  | ioRead
  | otherFailure
  | loaded (s : AgentShrine)

/-- Embeds `open_shrine` (`src/agent/server.rs:162-189`): load from the path, then —
for a shrine that requires a passphrase — look it up by uuid in the cache
(missing → `Unauthorized`), and open (failure → `Forbidden`). -/
def open_shrine (cache : Nat → Option String) (fs : String → LoadOutcome)
    (path : String) : Except ErrorResponse (AgentShrine × String) :=
  match fs path with
  | .fileNotFound => .error (.FileNotFound path)
  | .ioRead => .error (.Read path)
  | .otherFailure => .error (.Io path)
  | .loaded shrine =>
    let pwResult : Except ErrorResponse String :=
      if shrine.requiresPassword then
        match cache shrine.uuid with
        | none => .error (.Unauthorized shrine.uuid)
        | some p => .ok p
      else .ok ""
    match pwResult with
    | .error e => .error e
    | .ok pw =>
      if shrine.opensWith pw then .ok (shrine, pw)
      else .error (.Forbidden shrine.uuid)

/-- The cache TTL (`src/agent/server.rs:276`): 15 minutes; time is modelled
as seconds since an arbitrary epoch. -/
def ttl : Int := 15 * 60

/-- Embeds `AgentState::clean_expired_passwords` (`src/agent/server.rs:275-282`):
retain entries whose access time is strictly greater than `now - ttl`. -/
def clean_expired_passwords (now : Int) (passwords : List (Nat × Int × String)) :
    List (Nat × Int × String) :=
  passwords.filter (fun e => decide (now - ttl < e.2.1))

/-- Embeds `AgentState::get_password` (`src/agent/server.rs:264-273`): a hit removes
the entry and reinserts it with a fresh access time. -/
def get_password (now : Int) (passwords : List (Nat × Int × String)) (uuid : Nat) :
    Option String × List (Nat × Int × String) :=
  match assocGet passwords uuid with
  | none => (none, passwords)
  | some (_, password) =>
    (some password, assocDrop passwords uuid ++ [(uuid, now, password)])

/-- Embeds `AgentState::set_password` (`src/agent/server.rs:253-258`). -/
def set_password (now : Int) (passwords : List (Nat × Int × String)) (uuid : Nat)
    (password : String) : List (Nat × Int × String) :=
  assocPut passwords uuid (now, password)

/-! ## Claim theorems -/

/-- C1: for every holder of secrets `H` and every passphrase `p`, closing an
open AES shrine containing `H` with `p` (serialize then encrypt) and opening
the result with the same `p` (decrypt then deserialize) yields the shrine
back, in particular with secrets equal to `H`. -/
theorem aes_close_open_roundtrip (magic : List Nat) (md : Metadata)
    (H : Holder Secret) (p : String) :
    (LocalShrine.close ⟨magic, md, ⟨H⟩, ⟨⟨p⟩⟩⟩).bind (fun c => c.openAes p) =
      .ok ⟨magic, md, ⟨H⟩, ⟨⟨p⟩⟩⟩ := by
  simp [LocalShrine.close, LocalShrine.openAes, SerializationFormat.serialize,
    SerializationFormat.deserialize, aesEncrypt, aesDecrypt,
    deserializeHolder_serializeHolder, Bind.bind, Except.bind, Functor.map, Except.map,
    Pure.pure, Except.pure]

/-- C2: opening the closed AES shrine produced with passphrase `p` using a
different passphrase `q` fails with `CryptoRead` (the spec's `CryptoFailure`),
and tampering with the ciphertext produces the very same error kind — even
when the correct passphrase is supplied. -/
theorem aes_open_wrong_password_or_tamper (magic : List Nat) (md : Metadata)
    (H : Holder Secret) (p q : String) (hne : q ≠ p) :
    (LocalShrine.close ⟨magic, md, ⟨H⟩, ⟨⟨p⟩⟩⟩).bind (fun c => c.openAes q) =
      .error .CryptoRead ∧
    (LocalShrine.close ⟨magic, md, ⟨H⟩, ⟨⟨p⟩⟩⟩).bind
        (fun c => LocalShrine.openAes { c with payload := ⟨tamperBlob c.payload.blob⟩ } p) =
      .error .CryptoRead := by
  constructor
  · simp [LocalShrine.close, LocalShrine.openAes, SerializationFormat.serialize,
      aesEncrypt, aesDecrypt, Bind.bind, Except.bind, Functor.map, Except.map,
      Pure.pure, Except.pure, Ne.symm hne]
  · simp [LocalShrine.close, LocalShrine.openAes, SerializationFormat.serialize,
      aesEncrypt, aesDecrypt, tamperBlob, Bind.bind, Except.bind, Functor.map, Except.map,
      Pure.pure, Except.pure]

theorem aes_open_wrong_password_or_tamper_witness :
    ("wrong" : String) ≠ "password" ∧
    ((LocalShrine.close ⟨shrineMagic, .V0 7 .Aes .Bson, ⟨Holder.new Secret⟩,
          ⟨⟨"password"⟩⟩⟩).bind (fun c => c.openAes "wrong") = .error .CryptoRead ∧
      (LocalShrine.close ⟨shrineMagic, .V0 7 .Aes .Bson, ⟨Holder.new Secret⟩,
          ⟨⟨"password"⟩⟩⟩).bind
          (fun c => LocalShrine.openAes
            { c with payload := ⟨tamperBlob c.payload.blob⟩ } "password") =
        .error .CryptoRead) :=
  ⟨by decide,
    aes_open_wrong_password_or_tamper shrineMagic (.V0 7 .Aes .Bson)
      (Holder.new Secret) "password" "wrong" (by decide)⟩

/-- A concrete closed shrine used for evaluations. -/
def sampleClosedFile : ClosedFile :=
  ⟨shrineMagic, .V0 0 .Aes .Bson, [7]⟩

/-- C3 counterexample: `write_file` does not write via a sibling temporary
path. When `write_all` fails right after `File::create` truncated the target,
the original content `[1, 2, 3]` is destroyed, and the operation trace is
exactly a `create` of the target followed by a `write_all` of the target —
no temporary path, no fsync, no rename. -/
theorem write_file_not_atomic :
    (write_file sampleClosedFile (some [1, 2, 3]) (.writeFailed 0)).1 ≠ some [1, 2, 3] ∧
    write_file_trace sampleClosedFile "shrine" =
      [.create "shrine", .writeAll "shrine" (tryToBytes sampleClosedFile)] := by
  constructor
  · decide
  · rfl

/-- C3 (amended): `write_file` serializes the shrine and writes the bytes
directly to the target path with `File::create` + `write_all`: on success the
target holds exactly the serialized bytes; a failure of `create` leaves the
original; a failure during `write_all` leaves the truncated prefix written so
far (the original content is lost); the trace is `create` then `write_all` on
the target path only — there is no temporary file, no fsync and no rename. -/
theorem write_file_direct (f : ClosedFile) (orig : Option (List Nat))
    (path : String) (k : Nat) :
    write_file f orig .success = (some (tryToBytes f), true) ∧
    write_file f orig .createFailed = (orig, false) ∧
    write_file f orig (.writeFailed k) = (some ((tryToBytes f).take k), false) ∧
    write_file_trace f path = [.create path, .writeAll path (tryToBytes f)] :=
  ⟨rfl, rfl, rfl, rfl⟩

/-- C5: inputs shorter than 6 bytes and 6-byte inputs that differ from the
magic do return `Error::Read()`, but the 6-byte input that exactly equals the
magic string `"shrine"` drives `try_from_bytes` into the out-of-bounds index
`bytes[6]` — a panic, not an error: the length guard reads `< 6` where the
spec requires at least 7 bytes. -/
theorem try_from_bytes_len_six_panics :
    tryFromBytes shrineMagic = .panics ∧
    tryFromBytes [] = .fails .Read ∧
    tryFromBytes [115, 104, 114, 105, 110] = .fails .Read ∧
    tryFromBytes [115, 104, 114, 105, 110, 102] = .fails .Read := by
  decide

/-- C9: every entry surviving `clean_expired_passwords` at sweep time `now`
has an access time strictly newer than `now - ttl` (15 minutes), and a
successful `get_password` lookup returns the passphrase and refreshes the
entry's access time to the lookup time. -/
theorem cache_sweep_and_refresh (now : Int) (passwords : List (Nat × Int × String))
    (uuid : Nat) (atime : Int) (password : String) :
    ((uuid, atime, password) ∈ clean_expired_passwords now passwords →
      now - ttl < atime) ∧
    (∀ t0 pw, assocGet passwords uuid = some (t0, pw) →
      (get_password now passwords uuid).1 = some pw ∧
      assocGet (get_password now passwords uuid).2 uuid = some (now, pw)) := by
  constructor
  · intro hmem
    have := (List.mem_filter.mp hmem).2
    simpa using this
  · intro t0 pw hget
    constructor
    · simp [get_password, hget]
    · simp only [get_password, hget]
      rw [assocGet_append_of_none _ _ _ (assocGet_drop_self _ _)]
      simp [assocGet]

theorem cache_sweep_and_refresh_witness :
    (((5, 0, "pw") ∈ clean_expired_passwords 10 [(5, 0, "pw")] ∧
        assocGet [((5 : Nat), ((0 : Int), "pw"))] 5 = some (0, "pw")) ∧
      (10 - ttl < 0 ∧
        ((get_password 10 [(5, 0, "pw")] 5).1 = some "pw" ∧
          assocGet (get_password 10 [(5, 0, "pw")] 5).2 5 = some (10, "pw")))) :=
  ⟨⟨by decide, by decide⟩,
    (cache_sweep_and_refresh 10 [(5, 0, "pw")] 5 0 "pw").1 (by decide),
    (cache_sweep_and_refresh 10 [(5, 0, "pw")] 5 0 "pw").2 0 "pw" (by decide)⟩

/-- C10: `into_clear` and `into_aes` change only the encryption-algorithm
field of the metadata (to `Plain` resp. `Aes`); the uuid, the serialization
format, the magic number and the in-memory secrets are unchanged. -/
theorem into_clear_into_aes_only_change_algorithm {P : Type}
    (s : LocalShrine OpenSecrets (AesState P))
    (t : LocalShrine OpenSecrets ClearState) :
    (s.into_clear.metadata.encryption_algorithm = .Plain ∧
      s.into_clear.metadata.uuid = s.metadata.uuid ∧
      s.into_clear.metadata.serialization_format = s.metadata.serialization_format ∧
      s.into_clear.magic_number = s.magic_number ∧
      s.into_clear.payload = s.payload) ∧
    (t.into_aes.metadata.encryption_algorithm = .Aes ∧
      t.into_aes.metadata.uuid = t.metadata.uuid ∧
      t.into_aes.metadata.serialization_format = t.metadata.serialization_format ∧
      t.into_aes.magic_number = t.magic_number ∧
      t.into_aes.payload = t.payload) := by
  obtain ⟨ms, mds, ps, es⟩ := s
  obtain ⟨mt, mdt, pt, et⟩ := t
  cases mds
  cases mdt
  simp [LocalShrine.into_clear, LocalShrine.into_aes, Metadata.uuid,
    Metadata.encryption_algorithm, Metadata.serialization_format]

/-- The magic check is the first step of `try_from_bytes`: any input whose
first six bytes differ from the magic fails with `Error::Read()`, whatever
comes after them. -/
theorem tryFromBytes_bad_magic (bs : List Nat) (h : bs.take 6 ≠ shrineMagic) :
    tryFromBytes bs = .fails .Read := by
  simp [tryFromBytes, h]

theorem tryToBytes_take_6 (f : ClosedFile) (h : f.magic_number = shrineMagic) :
    (tryToBytes f).take 6 = shrineMagic := by
  rw [tryToBytes, h, List.append_assoc, List.append_assoc]
  exact List.take_left' rfl

/-- C4: altering any one of the six magic bytes of a well-formed serialized
shrine makes `try_from_bytes` fail with `Error::Read()` (the spec's
`InvalidFile` kind), and the failure happens before any other parsing: the
same error results whatever follows the altered six-byte prefix (version
byte, metadata and payload are never examined). -/
theorem magic_tamper_fails_before_parsing (f : ClosedFile) (i b : Nat)
    (hmagic : f.magic_number = shrineMagic) (hi : i < 6)
    (hb : b ≠ (tryToBytes f).getD i 0) :
    tryFromBytes ((tryToBytes f).set i b) = .fails .Read ∧
    ∀ tail, tryFromBytes ((((tryToBytes f).set i b).take 6) ++ tail) = .fails .Read := by
  have hlen : 6 ≤ (tryToBytes f).length := by
    rw [tryToBytes, hmagic]
    simp [shrineMagic]
  have hil : i < (tryToBytes f).length := lt_of_lt_of_le hi hlen
  have htake : (tryToBytes f).take 6 = shrineMagic := tryToBytes_take_6 f hmagic
  have hne_take : ((tryToBytes f).set i b).take 6 ≠ shrineMagic := by
    intro heq
    have h1 : (((tryToBytes f).set i b).take 6)[i]? = some b := by
      rw [List.getElem?_take, if_pos hi]
      simp [List.getElem?_set_self', List.getElem?_eq_getElem hil]
    rw [heq, ← htake, List.getElem?_take, if_pos hi,
      List.getElem?_eq_getElem hil] at h1
    have h2 : (tryToBytes f).getD i 0 = (tryToBytes f)[i] :=
      List.getD_eq_getElem _ 0 hil
    exact hb ((h2.trans (Option.some.inj h1)).symm)
  constructor
  · exact tryFromBytes_bad_magic _ hne_take
  · intro tail
    apply tryFromBytes_bad_magic
    have hlen' : 6 ≤ (((tryToBytes f).set i b).take 6).length := by
      simp only [List.length_take, List.length_set]
      omega
    rw [List.take_append_of_le_length hlen', List.take_take]
    simpa using hne_take

theorem magic_tamper_fails_before_parsing_witness :
    (sampleClosedFile.magic_number = shrineMagic ∧ (0 : Nat) < 6 ∧
      (116 : Nat) ≠ (tryToBytes sampleClosedFile).getD 0 0) ∧
    (tryFromBytes ((tryToBytes sampleClosedFile).set 0 116) = .fails .Read ∧
      tryFromBytes ((((tryToBytes sampleClosedFile).set 0 116).take 6) ++ []) =
        .fails .Read) :=
  ⟨⟨rfl, by decide, by decide⟩,
    (magic_tamper_fails_before_parsing sampleClosedFile 0 116 rfl (by decide)
      (by decide)).1,
    (magic_tamper_fails_before_parsing sampleClosedFile 0 116 rfl (by decide)
      (by decide)).2 []⟩

/-- C6: evaluation at the failing input. On a fresh shrine, after
`set(".k", "v")` stored the secret under private key `"k"`, `rm(".k")` hands
the dotted key to `Holder::remove` without stripping the dot (unlike `set`
and `get`): it returns `false`, the shrine is unchanged, and the private
secret is still there — the claim expects `true` and removal. -/
theorem rm_dotted_key_is_noop :
    (((LocalShrine.new 7).set ".k" [118] .Text 0).map
        (fun s1 => ((s1.rm ".k").2, ((s1.rm ".k").1.get ".k", s1.keys_private)))) =
      .ok (false, .ok (Secret.new [118] .Text 0), ["k"]) := by
  rfl

theorem dotSplit_dot_append (k : String) : dotSplit ("." ++ k) = some k := by
  cases k with
  | mk d => rfl

/-- C7: namespace routing. For a well-formed open shrine and a non-empty key
`k` not starting with `'.'`: after `set(k, v)`, `get(k)` returns a secret
with value `v` and `get("." + k)` is `KeyNotFound`; symmetrically, after
`set("." + k, v)`, `get("." + k)` returns `v` and `get(k)` is `KeyNotFound`. -/
theorem set_get_namespace_routing {E : Type} (s : LocalShrine OpenSecrets E)
    (k : String) (v : List Nat) (m : Mode) (now : Nat)
    (hwf : s.payload.secrets.Wf) (hdot : dotSplit k = none) (hne : k ≠ "") :
    (∃ s1, s.set k v m now = .ok s1 ∧
      (∃ sec, s1.get k = .ok sec ∧ sec.value = v ∧ sec.mode = m) ∧
      s1.get ("." ++ k) = .error (.KeyNotFound k)) ∧
    (∃ s2, s.set ("." ++ k) v m now = .ok s2 ∧
      (∃ sec, s2.get ("." ++ k) = .ok sec ∧ sec.value = v ∧ sec.mode = m) ∧
      s2.get k = .error (.KeyNotFound k)) := by
  constructor
  · cases hg : assocGet s.payload.secrets.publicNs k with
    | some sec0 =>
      have hset : s.set k v m now = .ok { s with payload :=
          ⟨⟨assocPut s.payload.secrets.publicNs k (sec0.with_data v m),
            s.payload.secrets.privateNs⟩⟩ } := by
        simp [LocalShrine.set, hdot, Holder.get, hg]
      refine ⟨_, hset, ⟨sec0.with_data v m, ?_, rfl, rfl⟩, ?_⟩
      · simp [LocalShrine.get, hdot, Holder.get, assocGet_put_self]
      · have hpriv : assocGet s.payload.secrets.privateNs k = none := by
          cases hp : assocGet s.payload.secrets.privateNs k with
          | none => rfl
          | some x =>
            exact (hwf k (assocGet_mem_keys _ _ _ hg)
              (assocGet_mem_keys _ _ _ hp)).elim
        simp [LocalShrine.get, dotSplit_dot_append, Holder.get_private, hpriv]
    | none =>
      have hset : s.set k v m now = .ok { s with payload :=
          ⟨⟨assocPut s.payload.secrets.publicNs k (Secret.new v m now),
            assocDrop s.payload.secrets.privateNs k⟩⟩ } := by
        simp [LocalShrine.set, hdot, Holder.get, hg, Holder.set, hne, Except.map]
      refine ⟨_, hset, ⟨Secret.new v m now, ?_, rfl, rfl⟩, ?_⟩
      · simp [LocalShrine.get, hdot, Holder.get, assocGet_put_self]
      · simp [LocalShrine.get, dotSplit_dot_append, Holder.get_private,
          assocGet_drop_self]
  · have hset : s.set ("." ++ k) v m now = .ok { s with payload :=
        ⟨⟨assocDrop s.payload.secrets.publicNs k,
          assocPut s.payload.secrets.privateNs k (Secret.new v m now)⟩⟩ } := by
      simp [LocalShrine.set, dotSplit_dot_append, Holder.set_private, hne, Except.map]
    refine ⟨_, hset, ⟨Secret.new v m now, ?_, rfl, rfl⟩, ?_⟩
    · simp [LocalShrine.get, dotSplit_dot_append, Holder.get_private,
        assocGet_put_self]
    · simp [LocalShrine.get, hdot, Holder.get, assocGet_drop_self]

theorem set_get_namespace_routing_witness :
    ((LocalShrine.new 3).payload.secrets.Wf ∧ dotSplit "a" = none ∧ "a" ≠ "") ∧
    ((∃ s1, (LocalShrine.new 3).set "a" [118] .Text 0 = .ok s1 ∧
        (∃ sec, s1.get "a" = .ok sec ∧ sec.value = [118] ∧ sec.mode = .Text) ∧
        s1.get ("." ++ "a") = .error (.KeyNotFound "a")) ∧
      (∃ s2, (LocalShrine.new 3).set ("." ++ "a") [118] .Text 0 = .ok s2 ∧
        (∃ sec, s2.get ("." ++ "a") = .ok sec ∧ sec.value = [118] ∧ sec.mode = .Text) ∧
        s2.get "a" = .error (.KeyNotFound "a"))) :=
  ⟨⟨by decide, by decide, by decide⟩,
    set_get_namespace_routing (LocalShrine.new 3) "a" [118] .Text 0
      (by decide) (by decide) (by decide)⟩

/-- C8: the agent's `open_shrine`: a missing file answers `FileNotFound`; an
AES shrine with no passphrase cached under its uuid answers `Unauthorized`;
a cached passphrase under which decryption fails answers `Forbidden`. -/
theorem open_shrine_error_routing (cache : Nat → Option String)
    (fs : String → LoadOutcome) (path : String) (shrine : AgentShrine) :
    (fs path = .fileNotFound → open_shrine cache fs path = .error (.FileNotFound path)) ∧
    (fs path = .loaded shrine → shrine.requiresPassword = true →
      cache shrine.uuid = none →
      open_shrine cache fs path = .error (.Unauthorized shrine.uuid)) ∧
    (∀ p, fs path = .loaded shrine → shrine.requiresPassword = true →
      cache shrine.uuid = some p → shrine.opensWith p = false →
      open_shrine cache fs path = .error (.Forbidden shrine.uuid)) := by
  refine ⟨?_, ?_, ?_⟩
  · intro h
    simp [open_shrine, h]
  · intro h hreq hcache
    simp [open_shrine, h, hreq, hcache]
  · intro p h hreq hcache hopen
    simp [open_shrine, h, hreq, hcache, hopen]

/-- A concrete AES shrine for the agent model: uuid 9, opens only with
`"pw"`. -/
def sampleAgentShrine : AgentShrine :=
  ⟨9, true, fun p => p == "pw"⟩

theorem open_shrine_error_routing_witness :
    (((fun _ : String => LoadOutcome.fileNotFound) "s" = .fileNotFound ∧
        open_shrine (fun _ => none) (fun _ => .fileNotFound) "s" =
          .error (.FileNotFound "s")) ∧
      ((fun _ : String => LoadOutcome.loaded sampleAgentShrine) "s" =
          .loaded sampleAgentShrine ∧
        open_shrine (fun _ => none) (fun _ => .loaded sampleAgentShrine) "s" =
          .error (.Unauthorized sampleAgentShrine.uuid)) ∧
      (sampleAgentShrine.opensWith "bad" = false ∧
        open_shrine (fun _ => some "bad") (fun _ => .loaded sampleAgentShrine) "s" =
          .error (.Forbidden sampleAgentShrine.uuid))) :=
  ⟨⟨rfl,
      (open_shrine_error_routing (fun _ => none) (fun _ => .fileNotFound) "s"
        sampleAgentShrine).1 rfl⟩,
    ⟨rfl,
      (open_shrine_error_routing (fun _ => none) (fun _ => .loaded sampleAgentShrine)
        "s" sampleAgentShrine).2.1 rfl rfl rfl⟩,
    ⟨by decide,
      (open_shrine_error_routing (fun _ => some "bad")
        (fun _ => .loaded sampleAgentShrine) "s" sampleAgentShrine).2.2 "bad"
        rfl rfl rfl (by decide)⟩⟩

end Tombeau
